import Mathlib

/-
  Verification development for the Mining-Automation repository
  (automate.go): a shallow embedding of the optimization selector,
  the launch-spec builder (changeAlgoGetParams), the check-in write,
  and the process-supervising control loop, together with theorems
  checking the natural-language specification against this embedding.
-/

set_option maxRecDepth 8000

namespace Mining

/- ===================== Data model ===================== -/

/-- Device record (table miners, shared models package). Fields follow the
data model of the specification and the uses in automate.go: identity,
display name, active-combination reference, email-notification preference
(a nullable pointer in the source, hence Option), offline-notice flag and
last-heartbeat timestamp.  The Go zero value corresponds to default. -/
structure Miner where
  ID : Nat
  Name : String
  MinerSoftwareAlgoID : Nat
  SendEmail : Option Bool
  OfflineNoticeSent : Bool
  LastCheckIn : Nat
deriving DecidableEq, Inhabited, Repr

/-- Software catalog row: executable display name plus the parameter-template
flag names used by changeAlgoGetParams, and the free-form extra arguments. -/
structure MinerSoftware where
  ID : Nat
  Name : String
  AlgoParam : String
  PoolParam : String
  WalletParam : String
  PasswordParam : String
  OtherParams : String
deriving DecidableEq, Inhabited, Repr

/-- Algorithm catalog row. -/
structure Algorithm where
  ID : Nat
  Name : String
deriving DecidableEq, Inhabited, Repr

/-- Per-device file path registered for a software (table miner_miner_softwares). -/
structure MinerMinerSoftware where
  MinerID : Nat
  MinerSoftwareID : Nat
  FilePath : String
deriving DecidableEq, Inhabited, Repr

/-- Combination row (table miner_software_algos): references to software and
algorithm, its own extra arguments, and the nullable eligibility flag
do_not_use. -/
structure MinerSoftwareAlgos where
  ID : Nat
  MinerSoftwareID : Nat
  AlgorithmID : Nat
  Name : String
  ExtraParams : String
  DoNotUse : Option Bool
deriving DecidableEq, Inhabited, Repr

/-- One row of the selector's join in getBestSoftwareAlgo: the combination
(miner_software_algos.*, which is what the query selects) together with the
columns the ORDER BY expression reads: coin price, profit estimate,
trailing-24-hour actual profit, the sample normalization factor
(average_stat.mh_factor), the pool normalization factor (pools.mh_factor)
and the averaged work rate (average_work). -/
structure JoinedRow where
  combo : MinerSoftwareAlgos
  price : ℚ
  profitEstimate : ℚ
  profitActual24Hours : ℚ
  sampleMhFactor : ℚ
  poolMhFactor : ℚ
  averageWork : ℚ
deriving DecidableEq, Inhabited

/-- Configuration file contents (Automate.hcl) restricted to the fields the
core logic reads; database connectivity fields are consumed by the external
Connect collaborator and omitted. -/
structure Config where
  minerName : String
  poolPassword : String
  wallet : String
  useEstimates : Nat
  rebootOnFailure : Nat
  optimizationCheckTime : Nat
  emailServer : String
  emailPort : String
  emailUser : String
  emailPassword : String
  emailFrom : String
  emailTo : String
deriving DecidableEq, Inhabited

/-- Persisted database state visible to this core: the device table, the
catalog tables read by changeAlgoGetParams, and the selector's joined view
(rows is the result of the join of miner_stats, pools, pool_stats,
coin_prices and miner_software_algos for this device). -/
structure Db where
  miners : List Miner
  minerSoftwares : List MinerSoftware
  algorithms : List Algorithm
  minerMinerSoftwares : List MinerMinerSoftware
  rows : List JoinedRow
deriving DecidableEq, Inhabited

/- ===================== Optimization selector ===================== -/

inductive SelectorError where
  | noViableOptimization
deriving DecidableEq, Repr

/-- The ORDER BY expression of getBestSoftwareAlgo, exactly as the source
builds it: with useEstimates = 0 the 24-hour actuals order
price*0.001*profit_actual24_hours*(average_stat.mh_factor / pools.mh_factor)*average_work,
otherwise the estimate order
price*profit_estimate*(average_stat.mh_factor / pools.mh_factor)*average_work. -/
def score (useEstimates : Nat) (r : JoinedRow) : ℚ :=
  if useEstimates = 0 then
    r.price * (0.001 : ℚ) * r.profitActual24Hours * (r.sampleMhFactor / r.poolMhFactor)
      * r.averageWork
  else
    r.price * r.profitEstimate * (r.sampleMhFactor / r.poolMhFactor) * r.averageWork

/-- The score as the specification words it (section 4.1 step 6):
price * profit_estimate * (avg_work_rate * sample_norm_factor / pool_norm_factor)
in estimate mode, price * 0.001 * profit_actual_24h *
(avg_work_rate * sample_norm_factor / pool_norm_factor) in actual mode.
Stated separately from the code's expression so that the two can be compared. -/
def specScore (useEstimates : Nat) (r : JoinedRow) : ℚ :=
  if useEstimates = 0 then
    r.price * (0.001 : ℚ) * r.profitActual24Hours
      * (r.averageWork * r.sampleMhFactor / r.poolMhFactor)
  else
    r.price * r.profitEstimate * (r.averageWork * r.sampleMhFactor / r.poolMhFactor)

/-- Eligibility filter of the WHERE clause: do_not_use IS NULL OR do_not_use = FALSE. -/
def eligibleCombo (c : MinerSoftwareAlgos) : Prop :=
  c.DoNotUse = none ∨ c.DoNotUse = some false

instance (c : MinerSoftwareAlgos) : Decidable (eligibleCombo c) := by
  unfold eligibleCombo; infer_instance

/-- The rows surviving the WHERE clause's eligibility condition. -/
def eligibleRows (rows : List JoinedRow) : List JoinedRow :=
  rows.filter (fun r => decide (eligibleCombo r.combo))

/-- ORDER BY score DESC LIMIT 1: some row of maximal score (first such row
kept on ties; the specification allows any tie-break). -/
def bestRow (useEstimates : Nat) : List JoinedRow → Option JoinedRow
  | [] => none
  | r :: rs =>
    match bestRow useEstimates rs with
    | none => some r
    | some b => if score useEstimates r < score useEstimates b then some b else some r

/-- getBestSoftwareAlgo: run the ordered, filtered join; the result variable
is a fresh zero-valued record, so an empty result leaves it equal to the zero
record and the source's comparison with the zero record raises the fatal
no-viable-optimization condition. -/
def getBestSoftwareAlgo (rows : List JoinedRow) (useEstimates : Nat) :
    Except SelectorError MinerSoftwareAlgos :=
  match bestRow useEstimates (eligibleRows rows) with
  | none => .error .noViableOptimization
  | some r =>
    if r.combo = default then .error .noViableOptimization else .ok r.combo

/- ===================== Selector lemmas ===================== -/

lemma specScore_eq_score (m : Nat) (r : JoinedRow) : specScore m r = score m r := by
  unfold specScore score
  by_cases h : m = 0 <;> simp [h] <;> ring

lemma bestRow_of_ne_nil (m : Nat) (l : List JoinedRow) (h : l ≠ []) :
    ∃ r, bestRow m l = some r := by
  cases l with
  | nil => exact absurd rfl h
  | cons a t =>
    simp only [bestRow]
    cases bestRow m t with
    | none => exact ⟨a, rfl⟩
    | some b =>
      by_cases hlt : score m a < score m b
      · exact ⟨b, if_pos hlt⟩
      · exact ⟨a, if_neg hlt⟩

lemma bestRow_mem (m : Nat) :
    ∀ (l : List JoinedRow) (r : JoinedRow), bestRow m l = some r → r ∈ l := by
  intro l
  induction l with
  | nil => intro r h; simp [bestRow] at h
  | cons a t ih =>
    intro r h
    cases ht : bestRow m t with
    | none => simp only [bestRow, ht] at h; cases h; exact List.mem_cons_self a t
    | some b =>
      simp only [bestRow, ht] at h
      by_cases hlt : score m a < score m b
      · rw [if_pos hlt] at h; cases h; exact List.mem_cons_of_mem a (ih _ ht)
      · rw [if_neg hlt] at h; cases h; exact List.mem_cons_self a t

lemma bestRow_maximal (m : Nat) :
    ∀ (l : List JoinedRow) (r : JoinedRow), bestRow m l = some r →
      ∀ x ∈ l, score m x ≤ score m r := by
  intro l
  induction l with
  | nil => intro r h; simp [bestRow] at h
  | cons a t ih =>
    intro r h x hx
    cases ht : bestRow m t with
    | none =>
      simp only [bestRow, ht] at h; cases h
      rcases List.mem_cons.mp hx with hxa | hxt
      · exact le_of_eq (by rw [hxa])
      · obtain ⟨r', hr'⟩ := bestRow_of_ne_nil m t (by rintro rfl; simp at hxt)
        rw [hr'] at ht; cases ht
    | some b =>
      simp only [bestRow, ht] at h
      by_cases hlt : score m a < score m b
      · rw [if_pos hlt] at h; cases h
        rcases List.mem_cons.mp hx with hxa | hxt
        · rw [hxa]; exact le_of_lt hlt
        · exact ih _ ht x hxt
      · rw [if_neg hlt] at h; cases h
        rcases List.mem_cons.mp hx with hxa | hxt
        · exact le_of_eq (by rw [hxa])
        · exact le_trans (ih _ ht x hxt) (le_of_not_lt hlt)

lemma mem_eligibleRows {rows : List JoinedRow} {r : JoinedRow} :
    r ∈ eligibleRows rows ↔ r ∈ rows ∧ eligibleCombo r.combo := by
  unfold eligibleRows
  rw [List.mem_filter]
  simp

/- ===================== Process supervisor ===================== -/

/-- Observable actions of the supervisor and control loop, in the order they
are performed: signal (proc.Kill), wait (proc.Wait), the 10-second backoff
sleep of the kill loop, the 30-second tick sleep, a liveness probe
(process.PidExists result), the email notification, a fatal program exit
(log.Fatal), the launch-spec builder run (changeAlgoGetParams), the
optimization-selector run, the heartbeat write (checkIn), and a process
launch (openProcess) with its executable path and argument list. -/
inductive Ev where
  | kill
  | wait
  | sleep10
  | sleep30
  | probe (alive : Bool)
  | notifyEmail
  | fatalExit
  | buildSpec
  | selectorRun
  | checkIn
  | launch (filePath : String) (args : List String)
deriving DecidableEq, Repr

/-- Occurrence count of one event in a trace. -/
def countEv (e : Ev) : List Ev → Nat
  | [] => 0
  | x :: t => (if x = e then 1 else 0) + countEv e t

/-- maxKillNumber in main: stop after 1,000 attempts. -/
def maxKillNumber : Nat := 1000

/-- The retry loop of Terminate: the loop body of `for exists` in main.
alive is the liveness oracle (the result of the k-th PidExists probe),
probeIdx the index of the next probe, remaining the number of retry
attempts still allowed (initially maxKillNumber; the source counts up with
timesKilled and exits fatally when timesKilled exceeds maxKillNumber, which
is the same as this countdown reaching zero while the process is alive).
Returns the event trace and whether the process verifiably stopped. -/
def killLoopTrace (alive : Nat → Bool) (emailConfigured : Bool)
    (probeIdx : Nat) (remaining : Nat) : List Ev × Bool :=
  if alive probeIdx then
    match remaining with
    | 0 =>
      ((Ev.probe true :: (if emailConfigured then [Ev.notifyEmail] else []))
        ++ [Ev.fatalExit], false)
    | r + 1 =>
      let rest := killLoopTrace alive emailConfigured (probeIdx + 1) r
      (Ev.probe true :: Ev.kill :: Ev.wait :: Ev.sleep10 :: rest.1, rest.2)
  else ([Ev.probe false], true)

/-- Terminate: the initial proc.Kill and proc.Wait of main's switch path,
the first PidExists probe, and then the bounded retry loop.  The email
notification is attempted exactly when len(config.EmailServer) > 0. -/
def terminateTrace (alive : Nat → Bool) (emailServer : String) : List Ev × Bool :=
  let k := killLoopTrace alive (decide (0 < emailServer.length)) 0 maxKillNumber
  (Ev.kill :: Ev.wait :: k.1, k.2)

/- ===================== Kill-loop lemmas ===================== -/

lemma killLoopTrace_alive_spec (alive : Nat → Bool) (e : Bool)
    (h : ∀ k, alive k = true) :
    ∀ (r i : Nat),
      (killLoopTrace alive e i r).2 = false
      ∧ countEv Ev.sleep10 (killLoopTrace alive e i r).1 = r
      ∧ Ev.fatalExit ∈ (killLoopTrace alive e i r).1
      ∧ (Ev.notifyEmail ∈ (killLoopTrace alive e i r).1 ↔ e = true) := by
  intro r
  induction r with
  | zero =>
    intro i
    cases e <;> simp [killLoopTrace, h i, countEv]
  | succ n ih =>
    intro i
    have IH := ih (i + 1)
    refine ⟨?_, ?_, ?_, ?_⟩
    · simp only [killLoopTrace, h i, if_true]
      exact IH.1
    · simp only [killLoopTrace, h i, if_true, countEv]
      simp [IH.2.1, Nat.add_comm]
    · simp only [killLoopTrace, h i, if_true]
      simp [IH.2.2.1]
    · simp only [killLoopTrace, h i, if_true]
      simpa using IH.2.2.2

/-- Every event the kill loop can emit; in particular it never launches. -/
lemma killLoopTrace_mem (alive : Nat → Bool) (e : Bool) :
    ∀ (r i : Nat) (x : Ev), x ∈ (killLoopTrace alive e i r).1 →
      x = Ev.probe true ∨ x = Ev.probe false ∨ x = Ev.kill ∨ x = Ev.wait
      ∨ x = Ev.sleep10 ∨ x = Ev.notifyEmail ∨ x = Ev.fatalExit := by
  intro r
  induction r with
  | zero =>
    intro i x hx
    by_cases ha : alive i = true
    · cases e <;> simp [killLoopTrace, ha] at hx <;> tauto
    · rw [Bool.not_eq_true] at ha
      simp [killLoopTrace, ha] at hx
      tauto
  | succ n ih =>
    intro i x hx
    by_cases ha : alive i = true
    · simp only [killLoopTrace, ha, if_true, List.mem_cons] at hx
      rcases hx with h1 | h1 | h1 | h1 | h1
      · tauto
      · tauto
      · tauto
      · tauto
      · exact ih (i + 1) x h1
    · rw [Bool.not_eq_true] at ha
      simp [killLoopTrace, ha] at hx
      tauto

/-- When the kill loop reports success, its trace ends with a probe that
reported the process dead, and some probe indeed returned false. -/
lemma killLoopTrace_success (alive : Nat → Bool) (e : Bool) :
    ∀ (r i : Nat), (killLoopTrace alive e i r).2 = true →
      ∃ pre j, alive j = false
        ∧ (killLoopTrace alive e i r).1 = pre ++ [Ev.probe false] := by
  intro r
  induction r with
  | zero =>
    intro i h
    by_cases ha : alive i = true
    · cases e <;> simp [killLoopTrace, ha] at h
    · rw [Bool.not_eq_true] at ha
      exact ⟨[], i, ha, by simp [killLoopTrace, ha]⟩
  | succ n ih =>
    intro i h
    by_cases ha : alive i = true
    · simp only [killLoopTrace, ha, if_true] at h
      obtain ⟨pre, j, hj, heq⟩ := ih (i + 1) h
      exact ⟨Ev.probe true :: Ev.kill :: Ev.wait :: Ev.sleep10 :: pre, j, hj,
        by simp [killLoopTrace, ha, heq]⟩
    · rw [Bool.not_eq_true] at ha
      exact ⟨[], i, ha, by simp [killLoopTrace, ha]⟩

lemma terminateTrace_success (alive : Nat → Bool) (es : String)
    (h : (terminateTrace alive es).2 = true) :
    ∃ pre j, alive j = false
      ∧ (terminateTrace alive es).1 = pre ++ [Ev.probe false] := by
  unfold terminateTrace at h ⊢
  obtain ⟨pre, j, hj, heq⟩ :=
    killLoopTrace_success alive (decide (0 < es.length)) maxKillNumber 0 h
  exact ⟨Ev.kill :: Ev.wait :: pre, j, hj, by simp [heq]⟩

lemma terminateTrace_mem (alive : Nat → Bool) (es : String) (x : Ev)
    (hx : x ∈ (terminateTrace alive es).1) :
    x = Ev.probe true ∨ x = Ev.probe false ∨ x = Ev.kill ∨ x = Ev.wait
    ∨ x = Ev.sleep10 ∨ x = Ev.notifyEmail ∨ x = Ev.fatalExit := by
  unfold terminateTrace at hx
  simp only [List.mem_cons] at hx
  rcases hx with h | h | h
  · tauto
  · tauto
  · exact killLoopTrace_mem alive (decide (0 < es.length)) maxKillNumber 0 x h

lemma terminateTrace_no_launch (alive : Nat → Bool) (es : String)
    (p : String) (a : List String) :
    Ev.launch p a ∉ (terminateTrace alive es).1 := by
  unfold terminateTrace
  intro hmem
  simp only [List.mem_cons] at hmem
  rcases hmem with h | h | h
  · cases h
  · cases h
  · have := killLoopTrace_mem alive (decide (0 < es.length)) maxKillNumber 0 _ h
    simp at this

/- ===================== Launch-spec builder ===================== -/

/-- Gorm lookups into a freshly declared (zero-valued) destination: a query
with no matching row leaves the destination at the zero record. -/
def lookupSoft (db : Db) (best : MinerSoftwareAlgos) : MinerSoftware :=
  (db.minerSoftwares.find? (fun s => s.ID == best.MinerSoftwareID)).getD default

def lookupAlgo (db : Db) (best : MinerSoftwareAlgos) : Algorithm :=
  (db.algorithms.find? (fun a => a.ID == best.AlgorithmID)).getD default

def lookupDetails (db : Db) (minerID softwareID : Nat) : MinerMinerSoftware :=
  (db.minerMinerSoftwares.find?
    (fun d => d.MinerID == minerID && d.MinerSoftwareID == softwareID)).getD default

/-- tx.First(miner, miner.ID): re-read the latest version of the device
record; the destination keeps its previous contents when no row matches. -/
def rereadMiner (db : Db) (miner : Miner) : Miner :=
  (db.miners.find? (fun m => m.ID == miner.ID)).getD miner

/-- Save of a device record: replace the row with the same primary key. -/
def saveMiner (db : Db) (m : Miner) : Db :=
  { db with miners := db.miners.map (fun x => if x.ID == m.ID then m else x) }

/-- checkIn: set the last-check-in instant on the device and save it.
A single-record save; returns the new persisted state and the updated
in-memory record. -/
def checkIn (db : Db) (thisMiner : Miner) (now : Nat) : Db × Miner :=
  let m := { thisMiner with LastCheckIn := now }
  (saveMiner db m, m)

/-- The device record as changeAlgoGetParams saves it: the re-read record
with the active combination switched and the offline-notice flag cleared. -/
def switchedMiner (db : Db) (miner : Miner) (best : MinerSoftwareAlgos) : Miner :=
  { rereadMiner db miner with MinerSoftwareAlgoID := best.ID, OfflineNoticeSent := false }

/-- Split a character list at every occurrence of the separator; consecutive
separators yield empty groups and the empty list yields one empty group. -/
def splitChars (sep : Char) : List Char → List (List Char)
  | [] => [[]]
  | c :: cs =>
    match splitChars sep cs with
    | [] => if c = sep then [[], []] else [[c]]
    | g :: gs => if c = sep then [] :: g :: gs else (c :: g) :: gs

/-- strings.Split(s, " "): split on every single blank, keeping empty
fields; the empty string yields one empty field. -/
def splitOnSpace (s : String) : List String :=
  (splitChars ' ' s.toList).map (fun l => String.mk l)

/-- The full parameter list assembled by changeAlgoGetParams: display name,
algorithm flag and name, pool flag and URL, wallet flag and wallet, password
flag and pool password, then the software's other parameters split on
blanks when non-empty, then the combination's extra parameters split on
blanks when non-empty. -/
def changeParams (db : Db) (best : MinerSoftwareAlgos) (config : Config)
    (poolURL : Nat → String) : List String :=
  [ (lookupSoft db best).Name,
    (lookupSoft db best).AlgoParam, best.Name,
    (lookupSoft db best).PoolParam, poolURL best.AlgorithmID,
    (lookupSoft db best).WalletParam, config.wallet,
    (lookupSoft db best).PasswordParam, config.poolPassword ]
  ++ (if 0 < (lookupSoft db best).OtherParams.length
      then splitOnSpace (lookupSoft db best).OtherParams else [])
  ++ (if 0 < best.ExtraParams.length then splitOnSpace best.ExtraParams else [])

/-- Why changeAlgoGetParams ended: the two log.Fatalf not-found branches,
the commit-failure log.Fatalf, or a run-time panic. -/
inductive FatalReason where
  | badLink
  | noFilePath
  | commitFailed
deriving DecidableEq, Repr

/-- Outcome of changeAlgoGetParams.  Each constructor carries the persisted
database state after the call: the transaction buffers all writes and
applies them only at commit, so every non-ok outcome leaves the database as
it was.  ok carries the parameter list, the file path, the persisted state,
the updated in-memory device record, and whether a notification was sent.
panicked is the nil-pointer dereference of the device's SendEmail field in
the notification condition; the deferred recover rolls the transaction
back. -/
inductive ChangeResult where
  | ok (params : List String) (filePath : String) (db : Db) (miner : Miner)
      (notified : Bool)
  | fatalLog (reason : FatalReason) (db : Db)
  | panicked (db : Db)
deriving DecidableEq

/-- changeAlgoGetParams: open a transaction; resolve the software and
algorithm links (fatal when either is the zero record); resolve the
per-device file path (fatal when it is the zero record); re-read the device
record; evaluate the notification condition
len(config.EmailServer) > 0 && *(miner.SendEmail), whose pointer
dereference panics when the preference is absent; switch the active
combination and clear the offline-notice flag; build the pool URL and the
parameter list; commit (fatal when the commit fails). -/
def changeAlgoGetParams (db : Db) (miner : Miner) (best : MinerSoftwareAlgos)
    (config : Config) (poolURL : Nat → String) (commitOk : Bool) : ChangeResult :=
  if lookupSoft db best = default ∨ lookupAlgo db best = default then
    .fatalLog .badLink db
  else if lookupDetails db miner.ID (lookupSoft db best).ID = default then
    .fatalLog .noFilePath db
  else if 0 < config.emailServer.length ∧ (rereadMiner db miner).SendEmail = none then
    .panicked db
  else if commitOk then
    .ok (changeParams db best config poolURL)
      (lookupDetails db miner.ID (lookupSoft db best).ID).FilePath
      (saveMiner db (switchedMiner db miner best))
      (switchedMiner db miner best)
      (decide (0 < config.emailServer.length) && (rereadMiner db miner).SendEmail.getD false)
  else .fatalLog .commitFailed db

/- ===================== Control loop ===================== -/

/-- Loop-carried state of main: the accumulated slept seconds, the in-memory
device record, the executable path and parameter list of the last launch,
and the persisted database. -/
structure LoopState where
  secondsSlept : Nat
  miner : Miner
  filePath : String
  params : List String
  db : Db
deriving DecidableEq

/-- Per-iteration environment: the PidExists result of this tick's probe,
the liveness oracle driving a possible terminate retry loop, the current
time for the heartbeat, and whether a commit would succeed. -/
structure TickEnv where
  alive : Bool
  killAlive : Nat → Bool
  now : Nat
  commitOk : Bool

/-- Result of one pass of the endless for loop: the next state with the
events performed, or a fatal program exit (log.Fatal) with the events
performed. -/
inductive StepResult where
  | next (st : LoopState) (tr : List Ev)
  | fatal (db : Db) (tr : List Ev)
deriving DecidableEq

def traceOf : StepResult → List Ev
  | .next _ tr => tr
  | .fatal _ tr => tr

def nextOf : StepResult → Option LoopState
  | .next st _ => some st
  | .fatal _ _ => none

/-- Continuation of the re-optimization pass after changeAlgoGetParams:
on success, launch the new process (already-confirmed-dead terminate trace
prepended); on a builder log.Fatal the program exits; on the recovered
panic the builder returned zero-valued parameters and the subsequent
openProcess on an empty path exits fatally. -/
def afterBuilder (termTr : List Ev) : ChangeResult → StepResult
  | .ok ps fp db2 m2 _ =>
    .next ⟨0, m2, fp, ps, db2⟩
      (Ev.selectorRun :: termTr ++ [Ev.buildSpec, Ev.launch fp ps])
  | .fatalLog _ db2 =>
    .fatal db2 (Ev.selectorRun :: termTr ++ [Ev.buildSpec, Ev.fatalExit])
  | .panicked db2 =>
    .fatal db2 (Ev.selectorRun :: termTr ++ [Ev.buildSpec, Ev.fatalExit])

/-- Re-optimization pass, after the selector succeeded: when the result
differs from the device's active combination, terminate the running process
with the bounded retry loop (fatal when it never dies) and continue with
the builder; otherwise nothing changes. -/
def switchCheck (cfg : Config) (poolURL : Nat → String) (st : LoopState)
    (env : TickEnv) (best : MinerSoftwareAlgos) : StepResult :=
  if best.ID = st.miner.MinerSoftwareAlgoID then
    .next { st with secondsSlept := 0 } [Ev.selectorRun]
  else
    if (terminateTrace env.killAlive cfg.emailServer).2 then
      afterBuilder (terminateTrace env.killAlive cfg.emailServer).1
        (changeAlgoGetParams st.db st.miner best cfg poolURL env.commitOk)
    else .fatal st.db (Ev.selectorRun :: (terminateTrace env.killAlive cfg.emailServer).1)

/-- Re-optimization pass: run the selector; its fatal error exits the
program, otherwise check for a switch. -/
def afterSelector (cfg : Config) (poolURL : Nat → String) (st : LoopState)
    (env : TickEnv) : Except SelectorError MinerSoftwareAlgos → StepResult
  | .error _ => .fatal st.db [Ev.selectorRun, Ev.fatalExit]
  | .ok best => switchCheck cfg poolURL st env best

/-- One pass of main's endless for loop.  When the accumulated slept seconds
are positive and a multiple of optimizationCheckTime: reset the accumulator
and run the re-optimization pass.  Otherwise: sleep 30 seconds, add 30 to
the accumulator, probe the process; when alive, record a heartbeat; when
dead, kill and wait to release resources and relaunch with the unchanged
path and parameters. -/
def loopIter (cfg : Config) (poolURL : Nat → String) (st : LoopState)
    (env : TickEnv) : StepResult :=
  if 0 < st.secondsSlept ∧ st.secondsSlept % cfg.optimizationCheckTime = 0 then
    afterSelector cfg poolURL st env (getBestSoftwareAlgo st.db.rows cfg.useEstimates)
  else if env.alive then
    .next { st with
              secondsSlept := st.secondsSlept + 30,
              miner := (checkIn st.db st.miner env.now).2,
              db := (checkIn st.db st.miner env.now).1 }
      [Ev.sleep30, Ev.probe true, Ev.checkIn]
  else
    .next { st with secondsSlept := st.secondsSlept + 30 }
      [Ev.sleep30, Ev.probe false, Ev.kill, Ev.wait, Ev.launch st.filePath st.params]

/-- Run n passes of the loop, feeding the i-th environment to the i-th pass;
none when some pass exits the program. -/
def runTicks (cfg : Config) (poolURL : Nat → String) (envs : Nat → TickEnv) :
    Nat → Nat → LoopState → Option (LoopState × List Ev)
  | _, 0, st => some (st, [])
  | i, n + 1, st =>
    match loopIter cfg poolURL st (envs i) with
    | .next st' tr =>
      match runTicks cfg poolURL envs (i + 1) n st' with
      | some (st'', tr') => some (st'', tr ++ tr')
      | none => none
    | .fatal _ _ => none

/-- The trace of a finished run. -/
def runTrace (o : Option (LoopState × List Ev)) : List Ev :=
  (o.map Prod.snd).getD []

/-- The accumulated-slept-seconds counter of a finished run. -/
def runSlept (o : Option (LoopState × List Ev)) : Nat :=
  (o.map (fun p => p.1.secondsSlept)).getD 0

/- ===================== Concrete fixtures for witnesses ===================== -/

def wCombo : MinerSoftwareAlgos := ⟨5, 1, 2, "x17", "", none⟩

def wRow : JoinedRow := ⟨wCombo, 1, 1, 1, 1, 1, 1⟩

def wMiner : Miner := ⟨1, "rig", 3, none, false, 0⟩

def wSoft : MinerSoftware := ⟨1, "worker", "--algo", "--pool", "--wallet", "--pass", ""⟩

def wAlgo : Algorithm := ⟨2, "x17"⟩

def wDetails : MinerMinerSoftware := ⟨1, 1, "/bin/worker"⟩

def wDb : Db := ⟨[wMiner], [wSoft], [wAlgo], [wDetails], [wRow]⟩

def wCfg : Config := ⟨"rig", "x", "W", 1, 0, 600, "", "", "", "", "", ""⟩

def wPu : Nat → String := fun _ => "stratum+tcp://p:3333"

/-- The argument list the builder assembles for the wDb fixture. -/
def wArgs : List String :=
  ["worker", "--algo", "x17", "--pool", "stratum+tcp://p:3333",
   "--wallet", "W", "--pass", "x"]

/-- The device record after the switch to wCombo in the wDb fixture. -/
def wM2 : Miner := ⟨1, "rig", 5, none, false, 0⟩

/- ===================== Claims ===================== -/

/-- C1: for every device and mode flag, when at least one eligible
(do_not_use false or unset) row exists whose record is not the zero record,
the selector returns exactly the combination of an eligible row whose score
— price * profit_estimate * (avg_work_rate * sample_norm_factor /
pool_norm_factor) in estimate mode, price * 0.001 * profit_actual_24h *
(avg_work_rate * sample_norm_factor / pool_norm_factor) in actual mode — is
maximal among all eligible rows, and an ineligible combination is never
returned. -/
theorem claim_C1 (rows : List JoinedRow) (mode : Nat)
    (hne : ∃ r ∈ rows, eligibleCombo r.combo)
    (hz : ∀ r ∈ rows, r.combo ≠ default) :
    (∃ r ∈ rows, eligibleCombo r.combo
       ∧ getBestSoftwareAlgo rows mode = .ok r.combo
       ∧ ∀ x ∈ rows, eligibleCombo x.combo → specScore mode x ≤ specScore mode r)
    ∧ (∀ c, getBestSoftwareAlgo rows mode = .ok c → eligibleCombo c) := by
  obtain ⟨r0, hr0, he0⟩ := hne
  have hfil : r0 ∈ eligibleRows rows := mem_eligibleRows.mpr ⟨hr0, he0⟩
  have hnn : eligibleRows rows ≠ [] := by
    intro hh; rw [hh] at hfil; simp at hfil
  obtain ⟨b, hb⟩ := bestRow_of_ne_nil mode _ hnn
  have hbmem := bestRow_mem mode _ _ hb
  have hbrows := (mem_eligibleRows.mp hbmem).1
  have hbel := (mem_eligibleRows.mp hbmem).2
  have hbd : b.combo ≠ default := hz b hbrows
  have hok : getBestSoftwareAlgo rows mode = .ok b.combo := by
    unfold getBestSoftwareAlgo
    rw [hb]
    simp [hbd]
  constructor
  · refine ⟨b, hbrows, hbel, hok, fun x hx hxe => ?_⟩
    rw [specScore_eq_score, specScore_eq_score]
    exact bestRow_maximal mode _ _ hb x (mem_eligibleRows.mpr ⟨hx, hxe⟩)
  · intro c hc
    rw [hok] at hc
    injection hc with h
    rw [← h]
    exact hbel

/-- Witness for C1 at a one-row database. -/
theorem claim_C1_witness :
    (∃ r ∈ [wRow], eligibleCombo r.combo
       ∧ getBestSoftwareAlgo [wRow] 1 = .ok r.combo
       ∧ ∀ x ∈ [wRow], eligibleCombo x.combo → specScore 1 x ≤ specScore 1 r)
    ∧ (∀ c, getBestSoftwareAlgo [wRow] 1 = .ok c → eligibleCombo c) :=
  claim_C1 [wRow] 1 ⟨wRow, by simp, Or.inl rfl⟩
    (by intro r hr; simp at hr; subst hr; decide)

/-- C2: when the selector's joined view has no eligible row (no rows at
all, or every combination marked do_not_use), getBestSoftwareAlgo fails
with the no-viable-optimization condition, and in the control loop this
failure is a fatal program exit: the pass ends with log.Fatal, performing
no retry, no launch and no default result. -/
theorem claim_C2 (rows : List JoinedRow) (mode : Nat)
    (h : ∀ r ∈ rows, ¬ eligibleCombo r.combo) :
    getBestSoftwareAlgo rows mode = .error .noViableOptimization
    ∧ ∀ (cfg : Config) (pu : Nat → String) (st : LoopState) (env : TickEnv),
        st.db.rows = rows → cfg.useEstimates = mode → 0 < st.secondsSlept →
        st.secondsSlept % cfg.optimizationCheckTime = 0 →
        loopIter cfg pu st env = .fatal st.db [Ev.selectorRun, Ev.fatalExit] := by
  have hnil : eligibleRows rows = [] := by
    unfold eligibleRows
    rw [List.filter_eq_nil_iff]
    intro a ha
    simpa using h a ha
  have hsel : getBestSoftwareAlgo rows mode = .error .noViableOptimization := by
    unfold getBestSoftwareAlgo
    rw [hnil]
    rfl
  refine ⟨hsel, fun cfg pu st env hrows hmode h1 h2 => ?_⟩
  have hsel' : getBestSoftwareAlgo st.db.rows cfg.useEstimates
      = .error .noViableOptimization := by rw [hrows, hmode]; exact hsel
  unfold loopIter
  rw [if_pos ⟨h1, h2⟩, hsel']
  rfl

/-- Witness for C2 at the empty joined view. -/
theorem claim_C2_witness :
    getBestSoftwareAlgo [] 0 = .error .noViableOptimization :=
  (claim_C2 [] 0 (by simp)).1

/-- C3: against a process that never dies, Terminate performs the
signal+wait+sleep(10s) retry exactly 1000 times (the sleep10 count of its
trace), and then — not before and not later — signals the fatal unkillable
condition: the trace ends in a fatal program exit, the email notification
is attempted exactly when an email server is configured, and the process
was never confirmed stopped. -/
theorem claim_C3 (alive : Nat → Bool) (emailServer : String)
    (h : ∀ k, alive k = true) :
    (terminateTrace alive emailServer).2 = false
    ∧ countEv Ev.sleep10 (terminateTrace alive emailServer).1 = maxKillNumber
    ∧ Ev.fatalExit ∈ (terminateTrace alive emailServer).1
    ∧ (Ev.notifyEmail ∈ (terminateTrace alive emailServer).1 ↔ 0 < emailServer.length) := by
  have K := killLoopTrace_alive_spec alive (decide (0 < emailServer.length)) h
    maxKillNumber 0
  unfold terminateTrace
  refine ⟨K.1, ?_, by simp [K.2.2.1], ?_⟩
  · simp [countEv, K.2.1]
  · simp only [List.mem_cons]
    rw [show (Ev.notifyEmail = Ev.kill ∨ Ev.notifyEmail = Ev.wait
        ∨ Ev.notifyEmail ∈ (killLoopTrace alive (decide (0 < emailServer.length))
          0 maxKillNumber).1)
      ↔ Ev.notifyEmail ∈ (killLoopTrace alive (decide (0 < emailServer.length))
          0 maxKillNumber).1 from by simp]
    rw [K.2.2.2]
    simp

/-- Witness for C3: an oracle that always reports the process alive. -/
theorem claim_C3_witness :
    (terminateTrace (fun _ => true) "smtp").2 = false
    ∧ countEv Ev.sleep10 (terminateTrace (fun _ => true) "smtp").1 = maxKillNumber
    ∧ Ev.fatalExit ∈ (terminateTrace (fun _ => true) "smtp").1
    ∧ (Ev.notifyEmail ∈ (terminateTrace (fun _ => true) "smtp").1
        ↔ 0 < "smtp".length) :=
  claim_C3 (fun _ => true) "smtp" (fun _ => rfl)

/-- In the optimization branch, a launch can only appear in the trace when
the terminate phase confirmed death and the builder succeeded, and then the
trace has exactly the switch-success shape ending in that launch. -/
lemma loopIter_launch_shape (cfg : Config) (pu : Nat → String) (st : LoopState)
    (env : TickEnv) (h1 : 0 < st.secondsSlept)
    (h2 : st.secondsSlept % cfg.optimizationCheckTime = 0)
    (p : String) (a : List String)
    (hl : Ev.launch p a ∈ traceOf (loopIter cfg pu st env)) :
    (terminateTrace env.killAlive cfg.emailServer).2 = true
    ∧ traceOf (loopIter cfg pu st env)
      = Ev.selectorRun :: (terminateTrace env.killAlive cfg.emailServer).1
          ++ [Ev.buildSpec, Ev.launch p a] := by
  have hopt : loopIter cfg pu st env
      = afterSelector cfg pu st env (getBestSoftwareAlgo st.db.rows cfg.useEstimates) := by
    unfold loopIter
    rw [if_pos ⟨h1, h2⟩]
  rw [hopt] at hl ⊢
  rcases hsel : getBestSoftwareAlgo st.db.rows cfg.useEstimates with e | best
  · rw [hsel] at hl
    simp [afterSelector, traceOf] at hl
  · rw [hsel] at hl
    simp only [afterSelector] at hl ⊢
    unfold switchCheck at hl ⊢
    by_cases hid : best.ID = st.miner.MinerSoftwareAlgoID
    · rw [if_pos hid] at hl
      simp [traceOf] at hl
    · rw [if_neg hid] at hl ⊢
      by_cases hterm : (terminateTrace env.killAlive cfg.emailServer).2 = true
      · rw [if_pos hterm] at hl ⊢
        rcases hch : changeAlgoGetParams st.db st.miner best cfg pu env.commitOk
          with ⟨ps, fp, db2, m2, n⟩ | ⟨r, db2⟩ | ⟨db2⟩ <;> rw [hch] at hl
        · simp only [afterBuilder, traceOf] at hl ⊢
          simp only [List.cons_append, List.mem_cons, List.mem_append] at hl
          rcases hl with h | h | h
          · cases h
          · exact absurd h (terminateTrace_no_launch _ _ _ _)
          · simp only [List.mem_cons, List.not_mem_nil] at h
            rcases h with h | h | h
            · cases h
            · injection h with hp ha
              subst hp
              subst ha
              exact ⟨hterm, rfl⟩
            · cases h
        · simp only [afterBuilder, traceOf] at hl
          simp only [List.cons_append, List.mem_cons, List.mem_append] at hl
          rcases hl with h | h | h
          · cases h
          · exact absurd h (terminateTrace_no_launch _ _ _ _)
          · simp at h
        · simp only [afterBuilder, traceOf] at hl
          simp only [List.cons_append, List.mem_cons, List.mem_append] at hl
          rcases hl with h | h | h
          · cases h
          · exact absurd h (terminateTrace_no_launch _ _ _ _)
          · simp at h
      · rw [if_neg hterm] at hl
        simp only [traceOf, List.mem_cons] at hl
        rcases hl with h | h
        · cases h
        · exact absurd h (terminateTrace_no_launch _ _ _ _)

/-- C4: whenever the control loop's re-optimization pass launches a new
worker process, the trace up to that launch ends with a liveness probe that
reported the old process dead (followed only by the launch-spec build), and
some probe of the terminate phase indeed observed death: no execution
launches the new process while the old process identifier is still live. -/
theorem claim_C4 (cfg : Config) (pu : Nat → String) (st : LoopState)
    (env : TickEnv) (h1 : 0 < st.secondsSlept)
    (h2 : st.secondsSlept % cfg.optimizationCheckTime = 0)
    (p : String) (a : List String)
    (hl : Ev.launch p a ∈ traceOf (loopIter cfg pu st env)) :
    ∃ pre j, env.killAlive j = false
      ∧ traceOf (loopIter cfg pu st env)
        = pre ++ [Ev.probe false, Ev.buildSpec, Ev.launch p a] := by
  obtain ⟨hterm, hshape⟩ := loopIter_launch_shape cfg pu st env h1 h2 p a hl
  obtain ⟨pre, j, hj, heq⟩ := terminateTrace_success env.killAlive cfg.emailServer hterm
  refine ⟨Ev.selectorRun :: pre, j, hj, ?_⟩
  rw [hshape, heq]
  simp

/-- Witness for C4: a switch where the first probe already reports death. -/
theorem claim_C4_witness :
    ∃ pre j,
      (TickEnv.mk true (fun _ => false) 7 true).killAlive j = false
      ∧ traceOf (loopIter wCfg wPu ⟨600, wMiner, "/bin/worker", ["worker"], wDb⟩
            ⟨true, fun _ => false, 7, true⟩)
        = pre ++ [Ev.probe false, Ev.buildSpec, Ev.launch "/bin/worker" wArgs] :=
  claim_C4 wCfg wPu ⟨600, wMiner, "/bin/worker", ["worker"], wDb⟩
    ⟨true, fun _ => false, 7, true⟩ (by decide) (by decide) "/bin/worker" wArgs
    (by decide)

/-- C5: on a sleep tick whose probe finds the worker dead, the loop
relaunches within that same tick with the identical executable path and
argument list, the persisted database (and so every field of the device
record, including the active combination) and the in-memory device record
are unchanged, and no re-optimization is run on this path. -/
theorem claim_C5 (cfg : Config) (pu : Nat → String) (st : LoopState)
    (env : TickEnv)
    (hbr : ¬(0 < st.secondsSlept ∧ st.secondsSlept % cfg.optimizationCheckTime = 0))
    (hdead : env.alive = false) :
    loopIter cfg pu st env
      = .next { st with secondsSlept := st.secondsSlept + 30 }
          [Ev.sleep30, Ev.probe false, Ev.kill, Ev.wait,
            Ev.launch st.filePath st.params]
    ∧ (∀ st', nextOf (loopIter cfg pu st env) = some st' →
        st'.filePath = st.filePath ∧ st'.params = st.params
        ∧ st'.miner = st.miner ∧ st'.db = st.db)
    ∧ Ev.selectorRun ∉ traceOf (loopIter cfg pu st env)
    ∧ Ev.launch st.filePath st.params ∈ traceOf (loopIter cfg pu st env) := by
  have he : loopIter cfg pu st env
      = .next { st with secondsSlept := st.secondsSlept + 30 }
          [Ev.sleep30, Ev.probe false, Ev.kill, Ev.wait,
            Ev.launch st.filePath st.params] := by
    unfold loopIter
    rw [if_neg hbr, hdead]
    simp
  refine ⟨he, ?_, ?_, ?_⟩
  · intro st' h
    rw [he] at h
    simp only [nextOf, Option.some.injEq] at h
    rw [← h]
    exact ⟨rfl, rfl, rfl, rfl⟩
  · rw [he]; simp [traceOf]
  · rw [he]; simp [traceOf]

/-- Witness for C5: a dead probe on the second tick. -/
theorem claim_C5_witness :
    loopIter wCfg wPu ⟨30, wMiner, "/bin/worker", ["worker"], wDb⟩
        ⟨false, fun _ => false, 9, true⟩
      = .next ⟨60, wMiner, "/bin/worker", ["worker"], wDb⟩
          [Ev.sleep30, Ev.probe false, Ev.kill, Ev.wait,
            Ev.launch "/bin/worker" ["worker"]]
    ∧ (∀ st', nextOf (loopIter wCfg wPu ⟨30, wMiner, "/bin/worker", ["worker"], wDb⟩
          ⟨false, fun _ => false, 9, true⟩) = some st' →
        st'.filePath = "/bin/worker" ∧ st'.params = ["worker"]
        ∧ st'.miner = wMiner ∧ st'.db = wDb)
    ∧ Ev.selectorRun ∉ traceOf (loopIter wCfg wPu
        ⟨30, wMiner, "/bin/worker", ["worker"], wDb⟩ ⟨false, fun _ => false, 9, true⟩)
    ∧ Ev.launch "/bin/worker" ["worker"] ∈ traceOf (loopIter wCfg wPu
        ⟨30, wMiner, "/bin/worker", ["worker"], wDb⟩ ⟨false, fun _ => false, 9, true⟩) :=
  claim_C5 wCfg wPu ⟨30, wMiner, "/bin/worker", ["worker"], wDb⟩
    ⟨false, fun _ => false, 9, true⟩ (by decide) rfl

/-- C7: every persisted-state update of this core is transactional: each
non-ok outcome of changeAlgoGetParams (either log.Fatal branch, a commit
failure, or the recovered panic with its rollback) leaves the persisted
database exactly as it was, the ok outcome persists the device record with
the new active combination and the cleared offline-notice flag applied
together in one save, and the heartbeat write saves the device record with
just the check-in instant changed, atomically. -/
theorem claim_C7 (db : Db) (miner : Miner) (best : MinerSoftwareAlgos)
    (cfg : Config) (pu : Nat → String) (ck : Bool) :
    (∀ r db2, changeAlgoGetParams db miner best cfg pu ck = .fatalLog r db2 → db2 = db)
    ∧ (∀ db2, changeAlgoGetParams db miner best cfg pu ck = .panicked db2 → db2 = db)
    ∧ (∀ ps fp db2 m2 n,
        changeAlgoGetParams db miner best cfg pu ck = .ok ps fp db2 m2 n →
          m2.MinerSoftwareAlgoID = best.ID ∧ m2.OfflineNoticeSent = false
          ∧ db2 = saveMiner db m2)
    ∧ (∀ (m0 : Miner) (now : Nat),
        (checkIn db m0 now).1 = saveMiner db { m0 with LastCheckIn := now }) := by
  refine ⟨?_, ?_, ?_, fun m0 now => rfl⟩
  · intro r db2 h
    unfold changeAlgoGetParams at h
    split at h
    · cases h; rfl
    · split at h
      · cases h; rfl
      · split at h
        · cases h
        · split at h
          · cases h
          · cases h; rfl
  · intro db2 h
    unfold changeAlgoGetParams at h
    split at h
    · cases h
    · split at h
      · cases h
      · split at h
        · cases h; rfl
        · split at h
          · cases h
          · cases h
  · intro ps fp db2 m2 n h
    unfold changeAlgoGetParams at h
    split at h
    · cases h
    · split at h
      · cases h
      · split at h
        · cases h
        · split at h
          · cases h
            exact ⟨rfl, rfl, rfl⟩
          · cases h

/-- Witness for C7: a successful switch in the wDb fixture persists the
fully updated device record in one save. -/
theorem claim_C7_witness :
    wM2.MinerSoftwareAlgoID = wCombo.ID ∧ wM2.OfflineNoticeSent = false
    ∧ saveMiner wDb wM2 = saveMiner wDb wM2 :=
  (claim_C7 wDb wMiner wCombo wCfg wPu true).2.2.1 wArgs "/bin/worker"
    (saveMiner wDb wM2) wM2 false (by decide)

/-- C8: for every successfully built launch spec, the argument list is, in
exactly this order: executable display name, algorithm flag, algorithm
name, pool flag, pool endpoint, wallet flag, wallet address, password flag,
pool password, then the software's free-form extra arguments split on
whitespace (only when non-empty), then the combination's own extra
arguments split on whitespace (only when non-empty); and the executable
path is the per-device file path registered for the software. -/
theorem claim_C8 (db : Db) (miner : Miner) (best : MinerSoftwareAlgos)
    (cfg : Config) (pu : Nat → String) (ck : Bool)
    (ps : List String) (fp : String) (db2 : Db) (m2 : Miner) (n : Bool)
    (h : changeAlgoGetParams db miner best cfg pu ck = .ok ps fp db2 m2 n) :
    ps = [ (lookupSoft db best).Name,
           (lookupSoft db best).AlgoParam, best.Name,
           (lookupSoft db best).PoolParam, pu best.AlgorithmID,
           (lookupSoft db best).WalletParam, cfg.wallet,
           (lookupSoft db best).PasswordParam, cfg.poolPassword ]
         ++ (if 0 < (lookupSoft db best).OtherParams.length
             then splitOnSpace (lookupSoft db best).OtherParams else [])
         ++ (if 0 < best.ExtraParams.length then splitOnSpace best.ExtraParams else [])
    ∧ fp = (lookupDetails db miner.ID (lookupSoft db best).ID).FilePath := by
  unfold changeAlgoGetParams at h
  split at h
  · cases h
  · split at h
    · cases h
    · split at h
      · cases h
      · split at h
        · cases h
          exact ⟨rfl, rfl⟩
        · cases h

/-- Fixture for the C8 witness: a software row with free-form extra
arguments and a combination with its own extra arguments. -/
def c8Soft : MinerSoftware :=
  ⟨1, "worker", "--algo", "--pool", "--wallet", "--pass", "--tls on"⟩

def c8Combo : MinerSoftwareAlgos := ⟨5, 1, 2, "x17", "-i 20", none⟩

def c8Db : Db := ⟨[wMiner], [c8Soft], [wAlgo], [wDetails], [wRow]⟩

def c8Ps : List String :=
  ["worker", "--algo", "x17", "--pool", "stratum+tcp://p:3333",
   "--wallet", "W", "--pass", "x", "--tls", "on", "-i", "20"]

/-- Witness for C8: both extras groups non-empty and whitespace-split. -/
theorem claim_C8_witness :
    c8Ps = [ (lookupSoft c8Db c8Combo).Name,
             (lookupSoft c8Db c8Combo).AlgoParam, c8Combo.Name,
             (lookupSoft c8Db c8Combo).PoolParam, wPu c8Combo.AlgorithmID,
             (lookupSoft c8Db c8Combo).WalletParam, wCfg.wallet,
             (lookupSoft c8Db c8Combo).PasswordParam, wCfg.poolPassword ]
           ++ (if 0 < (lookupSoft c8Db c8Combo).OtherParams.length
               then splitOnSpace (lookupSoft c8Db c8Combo).OtherParams else [])
           ++ (if 0 < c8Combo.ExtraParams.length
               then splitOnSpace c8Combo.ExtraParams else [])
    ∧ "/bin/worker" = (lookupDetails c8Db wMiner.ID (lookupSoft c8Db c8Combo).ID).FilePath :=
  claim_C8 c8Db wMiner c8Combo wCfg wPu true c8Ps "/bin/worker"
    (saveMiner c8Db wM2) wM2 false (by decide)

/-- C9: when an email server is configured but the re-read device record's
email-notification preference is the absent (nil) pointer, the launch-spec
builder dereferences the nil preference and aborts by panic during the
switch — the transaction is rolled back, the switch does not complete, and
the notification is not merely skipped. -/
theorem claim_C9 (db : Db) (miner : Miner) (best : MinerSoftwareAlgos)
    (cfg : Config) (pu : Nat → String) (ck : Bool)
    (h1 : ¬(lookupSoft db best = default ∨ lookupAlgo db best = default))
    (h2 : ¬ lookupDetails db miner.ID (lookupSoft db best).ID = default)
    (h3 : 0 < cfg.emailServer.length)
    (h4 : (rereadMiner db miner).SendEmail = none) :
    changeAlgoGetParams db miner best cfg pu ck = .panicked db := by
  unfold changeAlgoGetParams
  rw [if_neg h1, if_neg h2, if_pos ⟨h3, h4⟩]

/- ===================== C6 fixtures ===================== -/

/-- Database for the C6 scenario: the device's active combination is the
one the selector would pick, so re-optimization changes nothing. -/
def c6Db : Db := ⟨[wM2], [wSoft], [wAlgo], [wDetails], [wRow]⟩

def c6St : LoopState := ⟨0, wM2, "/bin/worker", wArgs, c6Db⟩

def c6Env : Nat → TickEnv := fun _ => ⟨true, fun _ => true, 0, true⟩

def c6Run (n : Nat) : Option (LoopState × List Ev) :=
  runTicks wCfg wPu c6Env 0 n c6St

/-- C6: re-optimization runs exactly when the accumulated slept-seconds
counter is nonzero and an exact multiple of the configured period (and the
counter then resets to zero); on every other iteration the loop sleeps 30
seconds, adds 30 to the counter, probes the process and records a heartbeat
exactly when it is alive.  In the concrete scenario with a 600-second
period and an always-alive process: after 9 ticks, 9 heartbeats and no
re-optimization (270 slept seconds); after 20 ticks, 20 heartbeats and no
re-optimization (600 slept seconds); the 21st pass, entered with 600 slept
seconds after the 20th tick, runs re-optimization without sleeping and the
counter resets to zero. -/
theorem claim_C6 :
    (∀ (cfg : Config) (pu : Nat → String) (st : LoopState) (env : TickEnv),
      0 < cfg.optimizationCheckTime →
      ((0 < st.secondsSlept ∧ st.secondsSlept % cfg.optimizationCheckTime = 0) →
        Ev.selectorRun ∈ traceOf (loopIter cfg pu st env)
        ∧ Ev.sleep30 ∉ traceOf (loopIter cfg pu st env)
        ∧ ∀ st', nextOf (loopIter cfg pu st env) = some st' → st'.secondsSlept = 0)
      ∧ (¬(0 < st.secondsSlept ∧ st.secondsSlept % cfg.optimizationCheckTime = 0) →
        Ev.selectorRun ∉ traceOf (loopIter cfg pu st env)
        ∧ Ev.sleep30 ∈ traceOf (loopIter cfg pu st env)
        ∧ Ev.probe env.alive ∈ traceOf (loopIter cfg pu st env)
        ∧ (∃ st', nextOf (loopIter cfg pu st env) = some st'
            ∧ st'.secondsSlept = st.secondsSlept + 30)
        ∧ (env.alive = true → Ev.checkIn ∈ traceOf (loopIter cfg pu st env))))
    ∧ (c6Run 9).isSome = true
    ∧ countEv Ev.checkIn (runTrace (c6Run 9)) = 9
    ∧ Ev.selectorRun ∉ runTrace (c6Run 9)
    ∧ runSlept (c6Run 9) = 270
    ∧ countEv Ev.checkIn (runTrace (c6Run 20)) = 20
    ∧ Ev.selectorRun ∉ runTrace (c6Run 20)
    ∧ runSlept (c6Run 20) = 600
    ∧ Ev.selectorRun ∈ runTrace (c6Run 21)
    ∧ countEv Ev.sleep30 (runTrace (c6Run 21)) = 20
    ∧ runSlept (c6Run 21) = 0 := by
  refine ⟨?_, by decide, by decide, by decide, by decide, by decide, by decide,
    by decide, by decide, by decide, by decide⟩
  intro cfg pu st env _
  constructor
  · intro hcond
    have hopt : loopIter cfg pu st env
        = afterSelector cfg pu st env (getBestSoftwareAlgo st.db.rows cfg.useEstimates) := by
      unfold loopIter
      rw [if_pos hcond]
    rw [hopt]
    rcases hsel : getBestSoftwareAlgo st.db.rows cfg.useEstimates with e | best
    · refine ⟨by simp [afterSelector, traceOf], by simp [afterSelector, traceOf], ?_⟩
      intro st' h
      simp [afterSelector, nextOf] at h
    · simp only [afterSelector]
      unfold switchCheck
      by_cases hid : best.ID = st.miner.MinerSoftwareAlgoID
      · rw [if_pos hid]
        refine ⟨by simp [traceOf], by simp [traceOf], ?_⟩
        intro st' h
        simp only [nextOf, Option.some.injEq] at h
        rw [← h]
      · rw [if_neg hid]
        by_cases hterm : (terminateTrace env.killAlive cfg.emailServer).2 = true
        · rw [if_pos hterm]
          rcases hch : changeAlgoGetParams st.db st.miner best cfg pu env.commitOk
            with ⟨ps, fp, db2, m2, n⟩ | ⟨r, db2⟩ | ⟨db2⟩
          · simp only [afterBuilder, traceOf]
            refine ⟨by simp, ?_, ?_⟩
            · intro hmem
              simp only [List.cons_append, List.mem_cons, List.mem_append] at hmem
              rcases hmem with h | h | h
              · cases h
              · have := terminateTrace_mem env.killAlive cfg.emailServer _ h
                simp at this
              · simp at h
            · intro st' h
              simp only [nextOf, Option.some.injEq] at h
              rw [← h]
          · simp only [afterBuilder, traceOf]
            refine ⟨by simp, ?_, ?_⟩
            · intro hmem
              simp only [List.cons_append, List.mem_cons, List.mem_append] at hmem
              rcases hmem with h | h | h
              · cases h
              · have := terminateTrace_mem env.killAlive cfg.emailServer _ h
                simp at this
              · simp at h
            · intro st' h
              simp [nextOf] at h
          · simp only [afterBuilder, traceOf]
            refine ⟨by simp, ?_, ?_⟩
            · intro hmem
              simp only [List.cons_append, List.mem_cons, List.mem_append] at hmem
              rcases hmem with h | h | h
              · cases h
              · have := terminateTrace_mem env.killAlive cfg.emailServer _ h
                simp at this
              · simp at h
            · intro st' h
              simp [nextOf] at h
        · rw [if_neg hterm]
          simp only [traceOf]
          refine ⟨by simp, ?_, ?_⟩
          · intro hmem
            simp only [List.mem_cons] at hmem
            rcases hmem with h | h
            · cases h
            · have := terminateTrace_mem env.killAlive cfg.emailServer _ h
              simp at this
          · intro st' h
            simp [nextOf] at h
  · intro hcond
    have hsleep : loopIter cfg pu st env
        = if env.alive then
            .next { st with
                      secondsSlept := st.secondsSlept + 30,
                      miner := (checkIn st.db st.miner env.now).2,
                      db := (checkIn st.db st.miner env.now).1 }
              [Ev.sleep30, Ev.probe true, Ev.checkIn]
          else
            .next { st with secondsSlept := st.secondsSlept + 30 }
              [Ev.sleep30, Ev.probe false, Ev.kill, Ev.wait,
                Ev.launch st.filePath st.params] := by
      unfold loopIter
      rw [if_neg hcond]
    rw [hsleep]
    by_cases ha : env.alive = true
    · rw [if_pos ha]
      refine ⟨by simp [traceOf], by simp [traceOf], by simp [traceOf, ha], ?_, ?_⟩
      · exact ⟨_, rfl, rfl⟩
      · intro _
        simp [traceOf]
    · have ha' : env.alive = false := by rwa [Bool.not_eq_true] at ha
      rw [if_neg ha]
      refine ⟨by simp [traceOf], by simp [traceOf], by simp [traceOf, ha'], ?_, ?_⟩
      · exact ⟨_, rfl, rfl⟩
      · intro h
        exact absurd h ha

/-- Witness for C6: the general clause applied to the state reached after
the 20th tick of the scenario, where re-optimization fires. -/
theorem claim_C6_witness :
    Ev.selectorRun ∈ traceOf (loopIter wCfg wPu ⟨600, wM2, "/bin/worker", wArgs, c6Db⟩
        (c6Env 20))
    ∧ Ev.sleep30 ∉ traceOf (loopIter wCfg wPu ⟨600, wM2, "/bin/worker", wArgs, c6Db⟩
        (c6Env 20))
    ∧ ∀ st', nextOf (loopIter wCfg wPu ⟨600, wM2, "/bin/worker", wArgs, c6Db⟩
        (c6Env 20)) = some st' → st'.secondsSlept = 0 :=
  ((claim_C6.1 wCfg wPu ⟨600, wM2, "/bin/worker", wArgs, c6Db⟩ (c6Env 20)
    (by decide)).1 (by decide))

/-- Fixture for the C9 witness: an email server is configured. -/
def c9Cfg : Config := ⟨"rig", "x", "W", 1, 0, 600, "smtp.example.com", "", "", "", "", ""⟩

/-- Witness for C9: the device record carries no email preference. -/
theorem claim_C9_witness :
    changeAlgoGetParams wDb wMiner wCombo c9Cfg wPu true = .panicked wDb :=
  claim_C9 wDb wMiner wCombo c9Cfg wPu true (by decide) (by decide) (by decide)
    (by decide)

/- ===================== C10 ===================== -/

/-- main's startup lookup of the device: the record read into a freshly
declared (zero-valued) destination. -/
def lookupMiner (miners : List Miner) (id : Nat) : Miner :=
  (miners.find? (fun m => m.ID == id)).getD default

/-- The startup not-found check: log.Fatal exactly when the fetched record
equals the zero record. -/
def minerStartupFatal (miners : List Miner) (id : Nat) : Bool :=
  decide (lookupMiner miners id = default)

/-- An all-zero device record, as a row that genuinely exists. -/
def zeroMiner : Miner := default

/-- An all-zero combination carried by an otherwise populated joined row. -/
def zeroComboRow : JoinedRow := ⟨default, 1, 1, 1, 1, 1, 1⟩

instance : DecidableEq (Except SelectorError MinerSoftwareAlgos) := fun a b =>
  match a, b with
  | .error x, .error y =>
    decidable_of_iff (x = y) ⟨fun h => h ▸ rfl, fun h => by injection h⟩
  | .error _, .ok _ => isFalse (fun h => Except.noConfusion h)
  | .ok _, .error _ => isFalse (fun h => Except.noConfusion h)
  | .ok x, .ok y =>
    decidable_of_iff (x = y) ⟨fun h => h ▸ rfl, fun h => by injection h⟩

/-- C10: every not-found check compares the fetched record to its type's
zero value and takes the fatal branch exactly when they are equal: the
startup device lookup, the software/algorithm-link and file-path checks of
the launch-spec builder, and the selector's empty-result check.  In
consequence a row that genuinely exists but whose fields all equal the zero
value is classified as not found: an all-zero device row is found by the
lookup yet triggers the startup fatal branch, and an all-zero combination
that is selected as the best row still yields the fatal
no-viable-optimization condition. -/
theorem claim_C10 :
    (∀ (miners : List Miner) (id : Nat),
      minerStartupFatal miners id = true ↔ lookupMiner miners id = default)
    ∧ (([zeroMiner].find? (fun m => m.ID == 0) = some zeroMiner)
        ∧ minerStartupFatal [zeroMiner] 0 = true)
    ∧ (∀ (db : Db) (miner : Miner) (best : MinerSoftwareAlgos) (cfg : Config)
        (pu : Nat → String) (ck : Bool),
        changeAlgoGetParams db miner best cfg pu ck = .fatalLog .badLink db
          ↔ (lookupSoft db best = default ∨ lookupAlgo db best = default))
    ∧ (∀ (db : Db) (miner : Miner) (best : MinerSoftwareAlgos) (cfg : Config)
        (pu : Nat → String) (ck : Bool),
        ¬(lookupSoft db best = default ∨ lookupAlgo db best = default) →
        (changeAlgoGetParams db miner best cfg pu ck = .fatalLog .noFilePath db
          ↔ lookupDetails db miner.ID (lookupSoft db best).ID = default))
    ∧ (∀ (rows : List JoinedRow) (mode : Nat),
        getBestSoftwareAlgo rows mode = .error .noViableOptimization
          ↔ (bestRow mode (eligibleRows rows) = none
             ∨ ∃ r, bestRow mode (eligibleRows rows) = some r ∧ r.combo = default))
    ∧ (bestRow 1 (eligibleRows [zeroComboRow]) = some zeroComboRow
        ∧ getBestSoftwareAlgo [zeroComboRow] 1 = .error .noViableOptimization) := by
  refine ⟨?_, by decide, ?_, ?_, ?_, by decide⟩
  · intro miners id
    simp [minerStartupFatal]
  · intro db miner best cfg pu ck
    constructor
    · intro h
      by_cases hc1 : lookupSoft db best = default ∨ lookupAlgo db best = default
      · exact hc1
      · exfalso
        unfold changeAlgoGetParams at h
        rw [if_neg hc1] at h
        by_cases hc2 : lookupDetails db miner.ID (lookupSoft db best).ID = default
        · rw [if_pos hc2] at h
          simp at h
        · rw [if_neg hc2] at h
          by_cases hc3 : 0 < cfg.emailServer.length
              ∧ (rereadMiner db miner).SendEmail = none
          · rw [if_pos hc3] at h
            simp at h
          · rw [if_neg hc3] at h
            by_cases hc4 : ck = true
            · rw [if_pos hc4] at h
              simp at h
            · rw [if_neg hc4] at h
              simp at h
    · intro h
      unfold changeAlgoGetParams
      rw [if_pos h]
  · intro db miner best cfg pu ck h1
    constructor
    · intro h
      by_cases hc2 : lookupDetails db miner.ID (lookupSoft db best).ID = default
      · exact hc2
      · exfalso
        unfold changeAlgoGetParams at h
        rw [if_neg h1, if_neg hc2] at h
        by_cases hc3 : 0 < cfg.emailServer.length
            ∧ (rereadMiner db miner).SendEmail = none
        · rw [if_pos hc3] at h
          simp at h
        · rw [if_neg hc3] at h
          by_cases hc4 : ck = true
          · rw [if_pos hc4] at h
            simp at h
          · rw [if_neg hc4] at h
            simp at h
    · intro h
      unfold changeAlgoGetParams
      rw [if_neg h1, if_pos h]
  · intro rows mode
    unfold getBestSoftwareAlgo
    rcases hb : bestRow mode (eligibleRows rows) with _ | r
    · simp
    · by_cases hd : r.combo = default
      · simp [hd]
      · simp [hd]

/-- Witness for C10: a database with an empty software catalog makes the
builder take the bad-link fatal branch via the zero-value comparison. -/
theorem claim_C10_witness :
    changeAlgoGetParams ⟨[wMiner], [], [], [], []⟩ wMiner wCombo wCfg wPu true
      = .fatalLog .badLink ⟨[wMiner], [], [], [], []⟩ :=
  (claim_C10.2.2.1 ⟨[wMiner], [], [], [], []⟩ wMiner wCombo wCfg wPu true).mpr
    (Or.inl (by decide))

end Mining
